import Mathlib

/-!
Verification development for the request-execution core of the aws-sdk-cpp
repository: retry-quota token accounting, the two retry strategies
(exponential backoff and quota-aware "standard"), and the clock-skew
self-correcting request executor.

The repository snapshot under verification ships the unit tests
(`aws-cpp-sdk-core-tests/aws/client/AWSClientTest.cpp`) and configuration
headers, but not the implementation translation units of
`DefaultRetryQuotaContainer`, `StandardRetryStrategy`, `DefaultRetryStrategy`
and `AWSClient::AttemptExhaustively`.  The definitions below are therefore
modelled from the specification's component contracts (spec.md §3-§4), with
every behavioural choice pinned down by the concrete assertions of the test
suite, which is source code of this repository.  Each modelled definition
says which test assertions fix its behaviour, and the trace theorems further
down replay the test suites against the model step by step.
-/

namespace AwsCore

/-! ## Retry quota container and the standard retry strategy -/

/-- Error kinds distinguished by the quota cost policy.  The test suite
exercises `CoreErrors::NETWORK_CONNECTION` and `CoreErrors::REQUEST_TIMEOUT`
(AWSClientTest.cpp lines 303-304); all further kinds behave like
`networkConnection` for cost purposes and are collapsed into `otherError`. -/
inductive CoreErrorType where
  | networkConnection
  | requestTimeout
  | otherError
  deriving DecidableEq, Repr

/-- An AWS error as the retry machinery sees it: its kind and whether the
classification step marked it retryable (second constructor argument of
`AWSError<CoreErrors>` in the tests). -/
structure StdError where
  errType : CoreErrorType
  retryable : Bool
  deriving DecidableEq, Repr

/-- Modelled from the spec: "Fixed per-error-kind acquisition costs (e.g., a
connection error costs 5 tokens, a timeout costs 10 tokens — costs are policy
constants)" (§4.2).  Pinned by the test comments and quota arithmetic at
AWSClientTest.cpp lines 305-311 (connection error acquires 5, request
timeout acquires 10). -/
def retryCost (t : CoreErrorType) : Nat :=
  match t with
  | CoreErrorType.requestTimeout => 10
  | _ => 5

/-- Quota released on a success with zero preceding failed attempts
(`NO_RETRY_INCREMENT`).  Pinned by AWSClientTest.cpp lines 338-343: a
no-retry success moves the quota from 2 to 3. -/
def noRetryIncrement : Nat := 1

/-- Default capacity of the retry quota container: "500 tokens in total"
(AWSClientTest.cpp line 288; spec §3). -/
def defaultRetryQuotaCapacity : Nat := 500

/-- Modelled from the spec: "`AcquireRetryQuota` atomically checks
`current >= cost`; if so decrements by `cost` and returns true; otherwise
returns false and quota is unchanged" (§4.2).  The quota is the signed
integer counter `m_retryQuota`; returns the success flag together with the
new counter value. -/
def acquireRetryQuota (cost : Nat) (q : Int) : Bool × Int :=
  if (cost : Int) ≤ q then (true, q - cost) else (false, q)

/-- Modelled from the spec: "`ReleaseRetryQuota` increments `current` by
`cost`, clamped to capacity" (§4.2). -/
def releaseRetryQuota (cap : Nat) (cost : Nat) (q : Int) : Int :=
  min (q + cost) (cap : Int)

/-- One external operation on the quota container, for stating the container
invariant over arbitrary operation sequences. -/
inductive QuotaOp where
  | acquire (cost : Nat)
  | release (cost : Nat)
  deriving DecidableEq, Repr

/-- Apply one operation to the counter. -/
def applyQuotaOp (cap : Nat) (q : Int) (op : QuotaOp) : Int :=
  match op with
  | QuotaOp.acquire cost => (acquireRetryQuota cost q).2
  | QuotaOp.release cost => releaseRetryQuota cap cost q

/-- Run a sequence of quota operations from a starting counter value. -/
def runQuotaOps (cap : Nat) (q : Int) (ops : List QuotaOp) : Int :=
  ops.foldl (applyQuotaOp cap) q

/-- Modelled from the spec: the quota-aware ("standard") strategy's retry
decision (§4.4) composed with its own attempt bound.  Order of the checks is
pinned by AWSClientTest.cpp line 307 ("Max attempts reached, will not
acquire more tokens"): the retryable flag and the attempt bound are checked
before any quota acquisition.  The default bound of three total attempts is
pinned by lines 305-310 (three queued errors, two retries, failure by
exhaustion). -/
def standardMaxAttempts : Nat := 3

/-- Decision of the standard strategy given the error, the number of retries
already attempted, and the current quota counter: the Boolean decision and
the (possibly decremented) counter. -/
def standardShouldRetry (e : StdError) (attemptedRetries : Nat) (q : Int) :
    Bool × Int :=
  if e.retryable = false then (false, q)
  else if standardMaxAttempts ≤ attemptedRetries + 1 then (false, q)
  else acquireRetryQuota (retryCost e.errType) q

/-- One transport response as the retry loop classifies it: a success or an
error with its retryability/kind. -/
inductive StdResp where
  | ok
  | err (e : StdError)
  deriving DecidableEq, Repr

/-- Final outcome of an invocation under the standard strategy. -/
inductive StdOutcome where
  | success
  | failure (e : StdError)
  | noResponse
  deriving DecidableEq, Repr

/-- Result record of one invocation: outcome, attempted retries, final quota
counter, total quota consumed by failed attempts, total quota released. -/
structure StdRunResult where
  outcome : StdOutcome
  retries : Nat
  quota : Int
  consumed : Nat
  released : Nat
  deriving DecidableEq, Repr

/-- Modelled from the spec: the executor retry loop under the standard
strategy (§4.4, §4.5).  `r` is the retries performed so far, `q` the quota
counter, `c` the quota consumed so far, `last` the most recent error.  On a
success the strategy's bookkeeping releases `noRetryIncrement` when no
attempt failed, and otherwise releases the acquisition cost of the most
recent failed attempt's error — the released amount is pinned by
AWSClientTest.cpp lines 313-320 (consume 5 then 10, succeed, quota moves
485 → 480, i.e. a release of 10) and lines 338-343 (no-retry success
releases 1). -/
def runStandardAux (cap : Nat) (r : Nat) (q : Int) (c : Nat)
    (last : Option StdError) : List StdResp → StdRunResult
  | [] => StdRunResult.mk StdOutcome.noResponse r q c 0
  | StdResp.ok :: _ =>
      let rel := match last with
        | none => noRetryIncrement
        | some e => retryCost e.errType
      StdRunResult.mk StdOutcome.success r (releaseRetryQuota cap rel q) c rel
  | StdResp.err e :: rest =>
      match standardShouldRetry e r q with
      | (true, q2) => runStandardAux cap (r + 1) q2 (c + retryCost e.errType)
          (some e) rest
      | (false, _) => StdRunResult.mk (StdOutcome.failure e) r q c 0

/-- One full invocation under the standard strategy starting from quota
counter `q`. -/
def runStandard (cap : Nat) (q : Int) (resps : List StdResp) : StdRunResult :=
  runStandardAux cap 0 q 0 none resps

/-- The connection error queued by the test suite (retryable). -/
def connectionError : StdError :=
  StdError.mk CoreErrorType.networkConnection true

/-- The request-timeout error queued by the test suite (retryable). -/
def requestTimeoutError : StdError :=
  StdError.mk CoreErrorType.requestTimeout true

/-! ## Request executor with clock-skew correction and retry headers

Times are modelled as integer numbers of seconds.  The executor below runs
one logical invocation under the default (exponential backoff) retry
strategy, as exercised by the clock-skew and retry-header tests. -/

/-- An error as classified by `BuildAWSError`: whether it is retryable and
the HTTP response code it carries. -/
structure ExecError where
  retryable : Bool
  responseCode : Nat
  deriving DecidableEq, Repr

/-- What one transport attempt produced: a success or a classified error. -/
inductive AttResult where
  | ok
  | err (e : ExecError)
  deriving DecidableEq, Repr

/-- One transport attempt as the executor observes it: the local wall-clock
time at which the attempt runs, the parsed `Date` header of the response
when one is present, and the classified result. -/
structure AttemptInput where
  localTime : Int
  serverDate : Option Int
  result : AttResult
  deriving DecidableEq, Repr

/-- The composite request-info header, one field per component: the attempt
number (always present), and the max-attempts and ttl fields, which are
optional. -/
structure RequestInfo where
  attempt : Nat
  maxAttempts : Option Nat
  ttl : Option Int
  deriving DecidableEq, Repr

/-- The per-attempt headers the executor emits that the retry-header test
inspects: the invocation-id header and the request-info header. -/
structure BuiltRequest where
  invocationId : Nat
  info : RequestInfo
  deriving DecidableEq, Repr

/-- Serialization of the request-info header into key/value fields, in the
shape the test's `ExtractFromRequestInfo` reads back: a field is present in
the header string exactly when it is present in this list. -/
def serializeRequestInfo (ri : RequestInfo) : List (String × String) :=
  [("attempt", toString ri.attempt)]
    ++ (match ri.maxAttempts with
        | some m => [("max", toString m)]
        | none => [])
    ++ (match ri.ttl with
        | some t => [("ttl", toString t)]
        | none => [])

/-- Modelled from the spec: default maxRetries of the exponential-backoff
strategy, "default maxRetries = 10, i.e., 11 total attempts" (§4.3); the 11
is pinned by the `max=11` header assertions, AWSClientTest.cpp lines 272 and
282. -/
def defaultMaxRetries : Nat := 10

/-- `GetMaxAttempts()` of the default strategy: maxRetries plus the initial
attempt. -/
def defaultMaxAttempts : Nat := defaultMaxRetries + 1

/-- Modelled from the spec: "`ShouldRetry` returns true iff
`error.retryable == true` AND `attemptedRetries < maxRetries`" (§4.3). -/
def defaultShouldRetry (e : ExecError) (attemptedRetries : Nat) : Bool :=
  e.retryable && decide (attemptedRetries < defaultMaxRetries)

/-- Modelled from the spec: clock-skew detection and correction (§4.1).
After a failed attempt whose response is not already retryable and carries a
usable `Date` header, the executor compares the server time against the
skew-adjusted local time (the signing timestamp, `localTime + skew`).  When
the magnitude of the difference reaches the threshold, the offset is folded
into the recorded skew (overwritten relative to raw local time, not
accumulated blindly) and the error is replaced by a retryable
skew-correction error that keeps the original response code; otherwise both
the error and the prior offset are left unchanged.  The comparison against
the *adjusted* time is pinned by TestClockSkewConsecutiveRequests (a 401
whose Date matches the already-recorded skew causes no further retry) and
TestClockChangesAfterSkewHasBeenSet (a Date a further hour ahead causes
exactly one more adjustment and retry). -/
def adjustClockSkew (thr : Int) (skew : Int) (localTime : Int)
    (serverDate : Option Int) (e : ExecError) : ExecError × Int :=
  if e.retryable then (e, skew)
  else
    match serverDate with
    | none => (e, skew)
    | some d =>
        let diff := d - (localTime + skew)
        if thr ≤ diff ∨ diff ≤ -thr then
          (ExecError.mk true e.responseCode, skew + diff)
        else (e, skew)

/-- Modelled from the spec: per-attempt request-info header construction
(§4.5 step 2 and §6).  `attemptedRetries` is the number of retries already
performed (zero on the first attempt); `diffPrev` is the server-time
difference observed on the most recent dated failed attempt.  The first
attempt carries `attempt=1` and neither `max` nor `ttl`; every retry carries
the incremented attempt number, `max` equal to the strategy's max attempts,
and `ttl` equal to the server-time-corrected now plus the request timeout.
Pinned by TestRetryHeaders, AWSClientTest.cpp lines 258-282. -/
def buildRequestInfo (attemptedRetries : Nat) (diffPrev : Option Int)
    (timeout : Int) (localTime : Int) : RequestInfo :=
  if attemptedRetries = 0 then RequestInfo.mk 1 none none
  else
    RequestInfo.mk (attemptedRetries + 1) (some defaultMaxAttempts)
      (some (localTime + diffPrev.getD 0 + timeout))

/-- Execution context fixed for one invocation: the generated invocation id,
the configured request timeout (seconds), and the clock-skew threshold
(seconds, a policy constant; see spec §9). -/
structure ExecCtx where
  invocationId : Nat
  timeout : Int
  threshold : Int
  deriving DecidableEq, Repr

/-- Final outcome of an invocation under the default strategy. -/
inductive ExecOutcome where
  | success
  | failure (e : ExecError)
  | noResponse
  deriving DecidableEq, Repr

/-- Result of one invocation: the transport requests built (in order, one
per attempt actually made), the outcome, the attempted-retries counter, and
the client's clock-skew offset after the invocation. -/
structure ExecRunResult where
  requests : List BuiltRequest
  outcome : ExecOutcome
  retries : Nat
  skew : Int
  deriving DecidableEq, Repr

/-- Modelled from the spec: the executor's retry loop (§4.5) under the
default strategy.  `r` counts retries performed so far, `skew` is the
client's clock-skew offset, `diffPrev` the last observed server-time
difference used for the ttl header.  Each loop iteration builds the
transport request, consumes one transport result, updates the server-time
difference when the response is dated, applies clock-skew correction to the
classified error, and retries exactly when the strategy accepts the
(possibly skew-corrected) error. -/
def runExecAux (ctx : ExecCtx) (r : Nat) (skew : Int) (diffPrev : Option Int) :
    List AttemptInput → ExecRunResult
  | [] => ExecRunResult.mk [] ExecOutcome.noResponse r skew
  | a :: rest =>
      let req := BuiltRequest.mk ctx.invocationId
        (buildRequestInfo r diffPrev ctx.timeout a.localTime)
      match a.result with
      | AttResult.ok => ExecRunResult.mk [req] ExecOutcome.success r skew
      | AttResult.err e =>
          let newDiff := match a.serverDate with
            | some d => some (d - a.localTime)
            | none => diffPrev
          let es := adjustClockSkew ctx.threshold skew a.localTime a.serverDate e
          if defaultShouldRetry es.1 r then
            let res := runExecAux ctx (r + 1) es.2 newDiff rest
            ExecRunResult.mk (req :: res.requests) res.outcome res.retries
              res.skew
          else ExecRunResult.mk [req] (ExecOutcome.failure es.1) r es.2

/-- One full invocation: attempt counter starts fresh, the skew offset is
carried over from the client state. -/
def runExec (ctx : ExecCtx) (skew : Int) (inputs : List AttemptInput) :
    ExecRunResult :=
  runExecAux ctx 0 skew none inputs

/-- The error of the most recent failed attempt a successful run would have
seen before its success: the last error in the prefix of responses consumed
before the first success. -/
def lastErrAt (last : Option StdError) : List StdResp → Option StdError
  | [] => last
  | StdResp.ok :: _ => last
  | StdResp.err e :: rest => lastErrAt (some e) rest

/-- Dummy attempt record used as the `List.getD` fallback. -/
def dummyAttempt : AttemptInput :=
  AttemptInput.mk 0 none AttResult.ok

/-- Dummy built request used as the `List.getD` fallback. -/
def dummyRequest : BuiltRequest :=
  BuiltRequest.mk 0 (RequestInfo.mk 0 none none)

/-- The server-time difference the executor would be carrying when it builds
the request of index `j` (0-based) of an invocation whose attempts are
`inputs` and whose initial difference is `dp`: the initial value for the
first request, and afterwards the difference observed on the immediately
preceding attempt. -/
def dpAt (dp : Option Int) (inputs : List AttemptInput) : Nat → Option Int
  | 0 => dp
  | j + 1 =>
      some ((inputs.getD j dummyAttempt).serverDate.getD 0
        - (inputs.getD j dummyAttempt).localTime)

/-- Execution context used by concrete evaluations: invocation id 42,
request timeout 30 s, skew threshold 240 s. -/
def witnessCtx : ExecCtx := ExecCtx.mk 42 30 240

/-- The TestRetryHeaders scenario: two dated retryable failures (server one
and two hours ahead) followed by a success, attempts one second apart. -/
def headerTestInputs : List AttemptInput :=
  [AttemptInput.mk 100 (some 3700) (AttResult.err (ExecError.mk true 0)),
   AttemptInput.mk 101 (some 7300) (AttResult.err (ExecError.mk true 0)),
   AttemptInput.mk 102 (some 10900) AttResult.ok]

end AwsCore

namespace AwsCore

/-! ## Replaying the test suites against the model

These theorems evaluate the model on exactly the response sequences the
test suites queue and check the values the tests assert, grounding the
modelled definitions in the repository's source. -/

/-- TestStandardRetryStrategy steps 1-6 (AWSClientTest.cpp lines 293-343):
the model reproduces every asserted attempted-retries count and quota
value. -/
theorem testStandardRetryStrategy_trace :
    runStandard 500 500 [StdResp.ok] =
      StdRunResult.mk StdOutcome.success 0 500 0 1 ∧
    runStandard 500 500 [StdResp.err connectionError,
        StdResp.err requestTimeoutError, StdResp.err connectionError] =
      StdRunResult.mk (StdOutcome.failure connectionError) 2 485 15 0 ∧
    runStandard 500 485 [StdResp.err connectionError,
        StdResp.err requestTimeoutError, StdResp.ok] =
      StdRunResult.mk StdOutcome.success 2 480 15 10 ∧
    acquireRetryQuota 473 480 = (true, 7) ∧
    runStandard 500 7 [StdResp.err connectionError,
        StdResp.err connectionError] =
      StdRunResult.mk (StdOutcome.failure connectionError) 1 2 5 0 ∧
    runStandard 500 2 [StdResp.err connectionError] =
      StdRunResult.mk (StdOutcome.failure connectionError) 0 2 0 0 ∧
    runStandard 500 2 [StdResp.ok] =
      StdRunResult.mk StdOutcome.success 0 3 0 1 := by
  decide

/-! ## Quota container lemmas -/

/-- One quota operation keeps the counter within `[0, cap]`. -/
theorem applyQuotaOp_bounds (cap : Nat) (q : Int) (op : QuotaOp)
    (h0 : 0 ≤ q) (h1 : q ≤ (cap : Int)) :
    0 ≤ applyQuotaOp cap q op ∧ applyQuotaOp cap q op ≤ (cap : Int) := by
  cases op with
  | acquire cost =>
      simp only [applyQuotaOp, acquireRetryQuota]
      split <;> constructor <;> omega
  | release cost =>
      simp only [applyQuotaOp, releaseRetryQuota]
      constructor <;> omega

/-- Any sequence of quota operations keeps the counter within `[0, cap]`. -/
theorem runQuotaOps_bounds (cap : Nat) (ops : List QuotaOp) (q : Int)
    (h0 : 0 ≤ q) (h1 : q ≤ (cap : Int)) :
    0 ≤ runQuotaOps cap q ops ∧ runQuotaOps cap q ops ≤ (cap : Int) := by
  induction ops generalizing q with
  | nil => exact ⟨h0, h1⟩
  | cons op rest ih =>
      have hstep := applyQuotaOp_bounds cap q op h0 h1
      simpa [runQuotaOps] using ih (applyQuotaOp cap q op) hstep.1 hstep.2

/-- On a success, the standard run releases the cost of the most recent
failed attempt's error, or the no-retry increment when nothing failed. -/
theorem runStandardAux_released_on_success (cap : Nat)
    (resps : List StdResp) (r : Nat) (q : Int) (c : Nat)
    (last : Option StdError)
    (h : (runStandardAux cap r q c last resps).outcome = StdOutcome.success) :
    (runStandardAux cap r q c last resps).released =
      match lastErrAt last resps with
      | some e => retryCost e.errType
      | none => noRetryIncrement := by
  induction resps generalizing r q c last with
  | nil => simp [runStandardAux] at h
  | cons resp rest ih =>
      cases resp with
      | ok =>
          simp only [runStandardAux, lastErrAt]
          cases last <;> rfl
      | err e =>
          rcases hsr : standardShouldRetry e r q with ⟨b, q2⟩
          cases b with
          | true =>
              have h2 := h
              simp only [runStandardAux, hsr] at h2 ⊢
              exact ih (r + 1) q2 (c + retryCost e.errType) (some e) h2
          | false =>
              simp only [runStandardAux, hsr] at h
              exact absurd h (by simp)

/-! ## Claim theorems: retry quota accounting -/

/-- C1 counterexample: the invocation replayed from TestStandardRetryStrategy
step 3 (AWSClientTest.cpp lines 313-320) consumes 15 quota tokens across its
two failed attempts (5 for the connection error, 10 for the request
timeout), eventually succeeds, and is refunded 10 tokens — not the 15 the
claim requires. -/
theorem claim_C1_refund_counterexample :
    (runStandard 500 485 [StdResp.err connectionError,
        StdResp.err requestTimeoutError, StdResp.ok]).outcome =
      StdOutcome.success ∧
    (runStandard 500 485 [StdResp.err connectionError,
        StdResp.err requestTimeoutError, StdResp.ok]).consumed = 15 ∧
    (runStandard 500 485 [StdResp.err connectionError,
        StdResp.err requestTimeoutError, StdResp.ok]).released = 10 ∧
    ¬ (runStandard 500 485 [StdResp.err connectionError,
        StdResp.err requestTimeoutError, StdResp.ok]).released =
      (runStandard 500 485 [StdResp.err connectionError,
        StdResp.err requestTimeoutError, StdResp.ok]).consumed := by
  decide

/-- C1 (amended): when an invocation under the standard retry strategy
eventually succeeds, the amount refunded by `ReleaseRetryQuota` equals the
acquisition cost of the error of the invocation's most recent failed
attempt (10 for a request timeout, 5 otherwise), or the no-retry increment
of 1 when no attempt failed — not the total consumed across all failed
attempts. -/
theorem claim_C1_refund_is_last_cost (cap : Nat) (q : Int)
    (resps : List StdResp)
    (h : (runStandard cap q resps).outcome = StdOutcome.success) :
    (runStandard cap q resps).released =
      match lastErrAt none resps with
      | some e => retryCost e.errType
      | none => noRetryIncrement :=
  runStandardAux_released_on_success cap resps 0 q 0 none h

/-- Witness for C1 (amended): the TestStandardRetryStrategy step-3 trace,
whose last failed attempt is a request timeout, is refunded 10. -/
theorem claim_C1_refund_is_last_cost_witness :
    (runStandard 500 485 [StdResp.err connectionError,
        StdResp.err requestTimeoutError, StdResp.ok]).outcome =
      StdOutcome.success ∧
    (runStandard 500 485 [StdResp.err connectionError,
        StdResp.err requestTimeoutError, StdResp.ok]).released = 10 :=
  ⟨by decide,
    claim_C1_refund_is_last_cost 500 485
      [StdResp.err connectionError, StdResp.err requestTimeoutError,
        StdResp.ok] (by decide)⟩

/-- C2: for every capacity and every sequence of acquire/release operations
starting from the construction state (counter equal to the capacity), the
quota counter stays within `[0, capacity]`: no operation drives it negative
and no release pushes it above capacity. -/
theorem claim_C2_quota_stays_in_range :
    ∀ (cap : Nat) (ops : List QuotaOp),
      0 ≤ runQuotaOps cap (cap : Int) ops ∧
        runQuotaOps cap (cap : Int) ops ≤ (cap : Int) :=
  fun cap ops =>
    runQuotaOps_bounds cap ops (cap : Int) (Int.natCast_nonneg cap) le_rfl

/-- C3: `AcquireRetryQuota cost` succeeds exactly when the counter is at
least `cost`; on success it decrements the counter by exactly `cost`, and
on failure it leaves the counter unchanged. -/
theorem claim_C3_acquire_semantics :
    ∀ (cost : Nat) (q : Int),
      ((acquireRetryQuota cost q).1 = true ↔ (cost : Int) ≤ q) ∧
      ((cost : Int) ≤ q → (acquireRetryQuota cost q).2 = q - cost) ∧
      (q < (cost : Int) → (acquireRetryQuota cost q).2 = q) := by
  intro cost q
  simp only [acquireRetryQuota]
  split
  next h =>
    exact ⟨⟨fun _ => h, fun _ => rfl⟩, fun _ => rfl, fun hlt => by omega⟩
  next h =>
    exact ⟨⟨fun hc => Bool.noConfusion hc, fun hc => absurd hc h⟩,
      fun hc => absurd hc h, fun _ => rfl⟩

/-- Witness for C3: acquiring 5 from a counter of 7 succeeds and leaves 2;
acquiring 10 from 7 fails and leaves 7. -/
theorem claim_C3_acquire_semantics_witness :
    (acquireRetryQuota 5 7).1 = true ∧
    (acquireRetryQuota 5 7).2 = 2 ∧
    (acquireRetryQuota 10 7).2 = 7 :=
  ⟨(claim_C3_acquire_semantics 5 7).1.mpr (by decide),
    (claim_C3_acquire_semantics 5 7).2.1 (by decide),
    (claim_C3_acquire_semantics 10 7).2.2 (by decide)⟩

/-- C4: when the error is retryable and the standard strategy's attempt
bound still allows another retry, but the quota acquisition for the
error's cost fails, the invocation terminates at once with that error:
the retries counter, quota counter, and consumption are unchanged, and the
result does not depend on any further queued responses. -/
theorem claim_C4_quota_denied_terminates (cap : Nat) (r : Nat) (q : Int)
    (c : Nat) (last : Option StdError) (e : StdError)
    (rest : List StdResp) (hretry : e.retryable = true)
    (hatt : r + 1 < standardMaxAttempts)
    (hq : q < (retryCost e.errType : Int)) :
    runStandardAux cap r q c last (StdResp.err e :: rest) =
      StdRunResult.mk (StdOutcome.failure e) r q c 0 := by
  have h1 : ¬ (standardMaxAttempts ≤ r + 1) := by omega
  have h2 : ¬ ((retryCost e.errType : Int) ≤ q) := by omega
  simp [runStandardAux, standardShouldRetry, acquireRetryQuota, hretry,
    h1, h2]

/-- Witness for C4: the TestStandardRetryStrategy step-5 configuration
(quota 2, retryable connection error costing 5, first attempt) stops with
zero retries and quota untouched, with further responses queued. -/
theorem claim_C4_quota_denied_terminates_witness :
    runStandardAux 500 0 2 0 none [StdResp.err connectionError,
        StdResp.err connectionError] =
      StdRunResult.mk (StdOutcome.failure connectionError) 0 2 0 0 :=
  claim_C4_quota_denied_terminates 500 0 2 0 none connectionError
    [StdResp.err connectionError] (by decide) (by decide) (by decide)

/-- C10: every success with zero failed attempts still triggers a quota
release, of exactly one token, clamped to capacity; in particular a
no-retry success at full capacity leaves the quota at 500. -/
theorem claim_C10_no_retry_success_release :
    (∀ (cap : Nat) (q : Int) (rest : List StdResp),
      runStandard cap q (StdResp.ok :: rest) =
        StdRunResult.mk StdOutcome.success 0 (min (q + 1) (cap : Int)) 0 1) ∧
    (runStandard 500 500 [StdResp.ok]).quota = 500 := by
  constructor
  · intro cap q rest
    simp [runStandard, runStandardAux, releaseRetryQuota, noRetryIncrement]
  · decide


/-! ## Executor lemmas: retry bound and request structure -/

/-- A true retry decision of the default strategy implies the retry counter
is still below the bound. -/
theorem defaultShouldRetry_true_lt (e : ExecError) (r : Nat)
    (h : defaultShouldRetry e r = true) : r < defaultMaxRetries := by
  simp [defaultShouldRetry] at h
  exact h.2

/-- The retries counter of an executor run never exceeds the default
strategy's maxRetries. -/
theorem runExecAux_retries_le (ctx : ExecCtx) (inputs : List AttemptInput) :
    ∀ (r : Nat) (skew : Int) (dp : Option Int), r ≤ defaultMaxRetries →
      (runExecAux ctx r skew dp inputs).retries ≤ defaultMaxRetries := by
  induction inputs with
  | nil => intro r skew dp hr; simpa [runExecAux] using hr
  | cons a rest ih =>
      intro r skew dp hr
      rcases ha : a.result with _ | e
      · simpa [runExecAux, ha] using hr
      · simp only [runExecAux, ha]
        split
        next h =>
          exact ih (r + 1) _ _ (defaultShouldRetry_true_lt _ r h)
        next h => simpa using hr

/-- Each attempt builds exactly one request, so the number of requests is
bounded by the retries performed beyond the starting count, plus one. -/
theorem runExecAux_length_le (ctx : ExecCtx) (inputs : List AttemptInput) :
    ∀ (r : Nat) (skew : Int) (dp : Option Int),
      (runExecAux ctx r skew dp inputs).requests.length + r ≤
        (runExecAux ctx r skew dp inputs).retries + 1 := by
  induction inputs with
  | nil => intro r skew dp; simp [runExecAux]
  | cons a rest ih =>
      intro r skew dp
      rcases ha : a.result with _ | e
      · simp [runExecAux, ha]
        omega
      · simp only [runExecAux, ha]
        split
        next h =>
          have hih := ih (r + 1)
            (adjustClockSkew ctx.threshold skew a.localTime a.serverDate e).2
            (match a.serverDate with
             | some d => some (d - a.localTime)
             | none => dp)
          simp only [List.length_cons]
          omega
        next h =>
          simp
          omega

/-- A run makes at most one attempt per available transport response. -/
theorem runExecAux_requests_le_inputs (ctx : ExecCtx)
    (inputs : List AttemptInput) :
    ∀ (r : Nat) (skew : Int) (dp : Option Int),
      (runExecAux ctx r skew dp inputs).requests.length ≤ inputs.length := by
  induction inputs with
  | nil => intro r skew dp; simp [runExecAux]
  | cons a rest ih =>
      intro r skew dp
      rcases ha : a.result with _ | e
      · simp [runExecAux, ha]
      · simp only [runExecAux, ha]
        split
        next h =>
          simpa using Nat.succ_le_succ (ih (r + 1) _ _)
        next h => simp

/-- Unfolding of `dpAt` along a cons cell. -/
theorem dpAt_cons (dp : Option Int) (a : AttemptInput)
    (rest : List AttemptInput) (j : Nat) :
    dpAt dp (a :: rest) (j + 1) =
      dpAt (some (a.serverDate.getD 0 - a.localTime)) rest j := by
  cases j with
  | zero => simp [dpAt]
  | succ k => simp [dpAt]


/-- Shape of every request an executor run builds: it carries the context's
invocation id, its attempt field counts up from the starting retry count,
and the max-attempts and ttl fields are absent exactly on the very first
attempt of an invocation. -/
theorem runExecAux_request_shape (ctx : ExecCtx) (inputs : List AttemptInput) :
    ∀ (r : Nat) (skew : Int) (dp : Option Int) (j : Nat),
      j < (runExecAux ctx r skew dp inputs).requests.length →
      ((runExecAux ctx r skew dp inputs).requests.getD j
          dummyRequest).invocationId = ctx.invocationId ∧
      ((runExecAux ctx r skew dp inputs).requests.getD j
          dummyRequest).info.attempt = r + j + 1 ∧
      (r + j = 0 →
        ((runExecAux ctx r skew dp inputs).requests.getD j
            dummyRequest).info.maxAttempts = none ∧
        ((runExecAux ctx r skew dp inputs).requests.getD j
            dummyRequest).info.ttl = none) ∧
      (r + j ≠ 0 →
        ((runExecAux ctx r skew dp inputs).requests.getD j
            dummyRequest).info.maxAttempts = some defaultMaxAttempts ∧
        ∃ t, ((runExecAux ctx r skew dp inputs).requests.getD j
            dummyRequest).info.ttl = some t) := by
  induction inputs with
  | nil => intro r skew dp j hj; simp [runExecAux] at hj
  | cons a rest ih =>
      intro r skew dp j hj
      rcases ha : a.result with _ | e
      · simp only [runExecAux, ha] at hj ⊢
        simp only [List.length_cons, List.length_nil] at hj
        have hj0 : j = 0 := by omega
        subst hj0
        by_cases hr : r = 0 <;>
          simp [buildRequestInfo, hr]
      · simp only [runExecAux, ha] at hj ⊢
        split
        next h =>
          rw [if_pos h] at hj
          cases j with
          | zero =>
              by_cases hr : r = 0 <;>
                simp [buildRequestInfo, hr]
          | succ k =>
              simp only [List.length_cons] at hj
              have hih := ih (r + 1)
                (adjustClockSkew ctx.threshold skew a.localTime a.serverDate e).2
                (match a.serverDate with
                 | some d => some (d - a.localTime)
                 | none => dp) k (by omega)
              simp only [List.getD_cons_succ]
              refine ⟨hih.1, hih.2.1.trans (by omega), ?_, ?_⟩
              · intro h0
                exact absurd h0 (by omega)
              · intro _
                exact hih.2.2.2 (by omega)
        next h =>
          rw [if_neg h] at hj
          simp only [List.length_cons, List.length_nil] at hj
          have hj0 : j = 0 := by omega
          subst hj0
          by_cases hr : r = 0 <;>
            simp [buildRequestInfo, hr]

/-- Full description of each request an executor run builds, provided every
attempt's response carries a parseable server date: request `j` is built
from the local time of attempt `j` and the server-time difference observed
on attempt `j - 1`. -/
theorem runExecAux_request_getD (ctx : ExecCtx) (inputs : List AttemptInput) :
    ∀ (r : Nat) (skew : Int) (dp : Option Int),
      (∀ a ∈ inputs, a.serverDate.isSome = true) →
      ∀ j, j < (runExecAux ctx r skew dp inputs).requests.length →
      (runExecAux ctx r skew dp inputs).requests.getD j dummyRequest =
        BuiltRequest.mk ctx.invocationId
          (buildRequestInfo (r + j) (dpAt dp inputs j) ctx.timeout
            ((inputs.getD j dummyAttempt).localTime)) := by
  induction inputs with
  | nil => intro r skew dp _ j hj; simp [runExecAux] at hj
  | cons a rest ih =>
      intro r skew dp hd j hj
      have hda : a.serverDate.isSome = true := hd a (List.mem_cons_self a rest)
      rcases Option.isSome_iff_exists.mp hda with ⟨d, hdd⟩
      have hd2 : ∀ x ∈ rest, x.serverDate.isSome = true :=
        fun x hx => hd x (List.mem_cons_of_mem a hx)
      rcases ha : a.result with _ | e
      · simp only [runExecAux, ha] at hj ⊢
        simp only [List.length_cons, List.length_nil] at hj
        have hj0 : j = 0 := by omega
        subst hj0
        simp [dpAt]
      · simp only [runExecAux, ha] at hj ⊢
        split
        next h =>
          rw [if_pos h] at hj
          cases j with
          | zero => simp [dpAt]
          | succ k =>
              simp only [List.length_cons] at hj
              have hih := ih (r + 1)
                (adjustClockSkew ctx.threshold skew a.localTime a.serverDate e).2
                (match a.serverDate with
                 | some d2 => some (d2 - a.localTime)
                 | none => dp) hd2 k (by omega)
              simp only [List.getD_cons_succ]
              rw [hih, dpAt_cons, hdd]
              have harith : r + 1 + k = r + (k + 1) := by omega
              simp [harith, hdd]
        next h =>
          rw [if_neg h] at hj
          simp only [List.length_cons, List.length_nil] at hj
          have hj0 : j = 0 := by omega
          subst hj0
          simp [dpAt]

/-- When a non-retryable error's dated response is off from the adjusted
local clock by at least the threshold, the skew correction records the
difference and re-marks the error retryable, keeping its response code. -/
theorem adjustClockSkew_material (thr skew l d : Int) (e : ExecError)
    (he : e.retryable = false)
    (h : thr ≤ d - (l + skew) ∨ d - (l + skew) ≤ -thr) :
    adjustClockSkew thr skew l (some d) e =
      (ExecError.mk true e.responseCode, skew + (d - (l + skew))) := by
  unfold adjustClockSkew
  rw [if_neg (by simp [he])]
  dsimp only
  rw [if_pos h]

/-- When a non-retryable error's dated response is within the threshold of
the adjusted local clock, the skew correction changes nothing. -/
theorem adjustClockSkew_negligible (thr skew l d : Int) (e : ExecError)
    (he : e.retryable = false)
    (h1 : ¬ (thr ≤ d - (l + skew))) (h2 : ¬ (d - (l + skew) ≤ -thr)) :
    adjustClockSkew thr skew l (some d) e = (e, skew) := by
  unfold adjustClockSkew
  rw [if_neg (by simp [he])]
  dsimp only
  rw [if_neg (by push_neg; exact ⟨lt_of_not_le h1, lt_of_not_le h2⟩)]


/-! ## Claim theorems: retry strategy bound, clock skew, retry headers -/

/-- C5: the exponential-backoff strategy's ShouldRetry returns true exactly
when the error is retryable and the attempted-retries count is below
maxRetries; the default maxRetries is 10, and accordingly every invocation
run under the default strategy makes at most 11 total attempts (retries
bounded by 10, at most 11 requests built). -/
theorem claim_C5_backoff_should_retry_iff :
    (∀ (e : ExecError) (r : Nat),
      defaultShouldRetry e r = true ↔
        (e.retryable = true ∧ r < defaultMaxRetries)) ∧
    defaultMaxRetries = 10 ∧
    (∀ (ctx : ExecCtx) (skew : Int) (inputs : List AttemptInput),
      (runExec ctx skew inputs).retries + 1 ≤ 11 ∧
      (runExec ctx skew inputs).requests.length ≤ 11) := by
  refine ⟨fun e r => ?_, rfl, fun ctx skew inputs => ?_⟩
  · simp [defaultShouldRetry]
  · have h1 := runExecAux_retries_le ctx inputs 0 skew none (Nat.zero_le _)
    have h2 := runExecAux_length_le ctx inputs 0 skew none
    have h3 : defaultMaxRetries = 10 := rfl
    unfold runExec
    exact ⟨by omega, by omega⟩

/-- C6: when a response to a non-retryable (auth-classified) failure
carries a server date a full hour ahead of the adjusted local time and the
threshold is material (above two minutes, at most an hour), the executor
records the 3600-second offset and retries once; when the observed
discrepancy is only 120 seconds, the prior offset `s` is kept unchanged and
no skew-driven retry occurs. -/
theorem claim_C6_skew_threshold_behavior (ctx : ExecCtx) (t1 t2 t3 s : Int)
    (e1 e2 e3 : ExecError)
    (hthr1 : 120 < ctx.threshold) (hthr2 : ctx.threshold ≤ 3600)
    (he1 : e1.retryable = false) (he2 : e2.retryable = false)
    (he3 : e3.retryable = false) :
    ((runExec ctx 0 [AttemptInput.mk t1 (some (t1 + 3600)) (AttResult.err e1),
        AttemptInput.mk t2 (some (t2 + 3600)) (AttResult.err e2)]).retries = 1 ∧
     (runExec ctx 0 [AttemptInput.mk t1 (some (t1 + 3600)) (AttResult.err e1),
        AttemptInput.mk t2 (some (t2 + 3600)) (AttResult.err e2)]).skew = 3600 ∧
     (runExec ctx 0 [AttemptInput.mk t1 (some (t1 + 3600)) (AttResult.err e1),
        AttemptInput.mk t2 (some (t2 + 3600)) (AttResult.err e2)]).outcome =
       ExecOutcome.failure e2) ∧
    ((runExec ctx s [AttemptInput.mk t3 (some (t3 + s + 120))
        (AttResult.err e3)]).retries = 0 ∧
     (runExec ctx s [AttemptInput.mk t3 (some (t3 + s + 120))
        (AttResult.err e3)]).skew = s ∧
     (runExec ctx s [AttemptInput.mk t3 (some (t3 + s + 120))
        (AttResult.err e3)]).outcome = ExecOutcome.failure e3) := by
  have hA : adjustClockSkew ctx.threshold 0 t1 (some (t1 + 3600)) e1 =
      (ExecError.mk true e1.responseCode, 3600) :=
    (adjustClockSkew_material ctx.threshold 0 t1 (t1 + 3600) e1 he1
      (Or.inl (by omega))).trans
      (congrArg (Prod.mk (ExecError.mk true e1.responseCode)) (by ring))
  have hB : adjustClockSkew ctx.threshold 3600 t2 (some (t2 + 3600)) e2 =
      (e2, 3600) :=
    adjustClockSkew_negligible ctx.threshold 3600 t2 (t2 + 3600) e2 he2
      (by omega) (by omega)
  have hC : adjustClockSkew ctx.threshold s t3 (some (t3 + s + 120)) e3 =
      (e3, s) :=
    adjustClockSkew_negligible ctx.threshold s t3 (t3 + s + 120) e3 he3
      (by omega) (by omega)
  constructor
  · simp [runExec, runExecAux, hA, hB, defaultShouldRetry,
      defaultMaxRetries, he2]
  · simp [runExec, runExecAux, hC, defaultShouldRetry, he3]

/-- Witness for C6 at threshold 240 s: one-hour offset yields one retry,
two-minute offset yields none. -/
theorem claim_C6_skew_threshold_behavior_witness :
    (runExec (ExecCtx.mk 42 30 240) 0
        [AttemptInput.mk 0 (some 3600) (AttResult.err (ExecError.mk false 400)),
         AttemptInput.mk 1 (some 3601)
           (AttResult.err (ExecError.mk false 400))]).retries = 1 ∧
    (runExec (ExecCtx.mk 42 30 240) 7
        [AttemptInput.mk 5 (some 132)
           (AttResult.err (ExecError.mk false 400))]).retries = 0 :=
  ⟨(claim_C6_skew_threshold_behavior (ExecCtx.mk 42 30 240) 0 1 5 7
      (ExecError.mk false 400) (ExecError.mk false 400) (ExecError.mk false 400)
      (by decide) (by decide) rfl rfl rfl).1.1,
   (claim_C6_skew_threshold_behavior (ExecCtx.mk 42 30 240) 0 1 5 7
      (ExecError.mk false 400) (ExecError.mk false 400) (ExecError.mk false 400)
      (by decide) (by decide) rfl rfl rfl).2.1⟩

end AwsCore
namespace AwsCore

/-- C7: after a first invocation has recorded a 3600-second skew offset, a
later invocation whose response is a non-retryable error (e.g. a plain 401)
with a Date consistent with the recorded skew — hence nominally an hour off
raw local time — triggers no skew-driven retry: zero retries, that error's
outcome is surfaced, and the offset is unchanged. -/
theorem claim_C7_no_skew_retry_after_recorded (ctx : ExecCtx)
    (t1 t2 t3 : Int) (e1 e2 : ExecError)
    (hthr1 : 120 < ctx.threshold) (hthr2 : ctx.threshold ≤ 3600)
    (he1 : e1.retryable = false) (he2 : e2.retryable = false) :
    (runExec ctx 0 [AttemptInput.mk t1 (some (t1 + 3600)) (AttResult.err e1),
        AttemptInput.mk t2 (some (t2 + 3600)) (AttResult.err e1)]).skew =
      3600 ∧
    (t3 + 3600 ≠ t3) ∧
    (runExec ctx 3600 [AttemptInput.mk t3 (some (t3 + 3600))
        (AttResult.err e2)]).retries = 0 ∧
    (runExec ctx 3600 [AttemptInput.mk t3 (some (t3 + 3600))
        (AttResult.err e2)]).outcome = ExecOutcome.failure e2 ∧
    (runExec ctx 3600 [AttemptInput.mk t3 (some (t3 + 3600))
        (AttResult.err e2)]).skew = 3600 := by
  have hA : adjustClockSkew ctx.threshold 0 t1 (some (t1 + 3600)) e1 =
      (ExecError.mk true e1.responseCode, 3600) :=
    (adjustClockSkew_material ctx.threshold 0 t1 (t1 + 3600) e1 he1
      (Or.inl (by omega))).trans
      (congrArg (Prod.mk (ExecError.mk true e1.responseCode)) (by ring))
  have hB : adjustClockSkew ctx.threshold 3600 t2 (some (t2 + 3600)) e1 =
      (e1, 3600) :=
    adjustClockSkew_negligible ctx.threshold 3600 t2 (t2 + 3600) e1 he1
      (by omega) (by omega)
  have hC : adjustClockSkew ctx.threshold 3600 t3 (some (t3 + 3600)) e2 =
      (e2, 3600) :=
    adjustClockSkew_negligible ctx.threshold 3600 t3 (t3 + 3600) e2 he2
      (by omega) (by omega)
  refine ⟨?_, by omega, ?_⟩
  · simp [runExec, runExecAux, hA, hB, defaultShouldRetry,
      defaultMaxRetries, he1]
  · simp [runExec, runExecAux, hC, defaultShouldRetry, he2]

/-- Witness for C7 at threshold 240 s with a 401 after skew was set. -/
theorem claim_C7_no_skew_retry_after_recorded_witness :
    (runExec (ExecCtx.mk 42 30 240) 0
        [AttemptInput.mk 0 (some 3600) (AttResult.err (ExecError.mk false 400)),
         AttemptInput.mk 1 (some 3601)
           (AttResult.err (ExecError.mk false 400))]).skew = 3600 ∧
    (runExec (ExecCtx.mk 42 30 240) 3600
        [AttemptInput.mk 9 (some 3609)
           (AttResult.err (ExecError.mk false 401))]).retries = 0 ∧
    (runExec (ExecCtx.mk 42 30 240) 3600
        [AttemptInput.mk 9 (some 3609)
           (AttResult.err (ExecError.mk false 401))]).outcome =
      ExecOutcome.failure (ExecError.mk false 401) :=
  ⟨(claim_C7_no_skew_retry_after_recorded (ExecCtx.mk 42 30 240) 0 1 9
      (ExecError.mk false 400) (ExecError.mk false 401)
      (by decide) (by decide) rfl rfl).1,
   (claim_C7_no_skew_retry_after_recorded (ExecCtx.mk 42 30 240) 0 1 9
      (ExecError.mk false 400) (ExecError.mk false 401)
      (by decide) (by decide) rfl rfl).2.2.1,
   (claim_C7_no_skew_retry_after_recorded (ExecCtx.mk 42 30 240) 0 1 9
      (ExecError.mk false 400) (ExecError.mk false 401)
      (by decide) (by decide) rfl rfl).2.2.2.1⟩

end AwsCore
namespace AwsCore

/-- C8 counterexample: in the TestRetryHeaders scenario the very first
request's serialized request-info header does carry an attempt-number
field, `attempt=1` (AWSClientTest.cpp line 261), so the first attempt does
not "carry neither an attempt-number header field nor a max-attempts header
field"; the invocation goes on to make further attempts. -/
theorem claim_C8_first_headers_counterexample :
    ("attempt", "1") ∈ serializeRequestInfo
      (((runExec witnessCtx 0 headerTestInputs).requests.getD 0
          dummyRequest).info) ∧
    2 ≤ (runExec witnessCtx 0 headerTestInputs).requests.length := by
  decide

/-- C8 (amended): the first attempt's request carries `attempt=1` but
neither a max-attempts nor a ttl field; the max-attempts field (and a ttl)
is attached only starting from attempt 2. -/
theorem claim_C8_first_headers_amended (ctx : ExecCtx) (skew : Int)
    (inputs : List AttemptInput) :
    (0 < (runExec ctx skew inputs).requests.length →
      ((runExec ctx skew inputs).requests.getD 0
          dummyRequest).info.attempt = 1 ∧
      ((runExec ctx skew inputs).requests.getD 0
          dummyRequest).info.maxAttempts = none ∧
      ((runExec ctx skew inputs).requests.getD 0
          dummyRequest).info.ttl = none) ∧
    (∀ j, j < (runExec ctx skew inputs).requests.length → j ≠ 0 →
      ((runExec ctx skew inputs).requests.getD j
          dummyRequest).info.maxAttempts = some defaultMaxAttempts ∧
      ∃ t, ((runExec ctx skew inputs).requests.getD j
          dummyRequest).info.ttl = some t) := by
  unfold runExec
  constructor
  · intro h0
    have h := runExecAux_request_shape ctx inputs 0 skew none 0 h0
    exact ⟨h.2.1, (h.2.2.1 rfl).1, (h.2.2.1 rfl).2⟩
  · intro j hj hjne
    have h := runExecAux_request_shape ctx inputs 0 skew none j hj
    exact h.2.2.2 (by omega)

/-- Witness for C8 (amended) on the TestRetryHeaders scenario. -/
theorem claim_C8_first_headers_amended_witness :
    ((runExec witnessCtx 0 headerTestInputs).requests.getD 0
        dummyRequest).info.maxAttempts = none ∧
    ((runExec witnessCtx 0 headerTestInputs).requests.getD 1
        dummyRequest).info.maxAttempts = some defaultMaxAttempts :=
  ⟨((claim_C8_first_headers_amended witnessCtx 0 headerTestInputs).1
      (by decide)).2.1,
   ((claim_C8_first_headers_amended witnessCtx 0 headerTestInputs).2 1
      (by decide) (by decide)).1⟩

end AwsCore
namespace AwsCore

/-- C9: across one invocation every request carries the same invocation id;
attempt 1's request-info has `attempt=1` and neither `ttl` nor `max`; every
request `n ≥ 2` has `attempt=n` (incrementing by one), the constant
`max` field, and a ttl equal to the skew-corrected current time plus the
request timeout — within ±2 seconds of the previously observed server time
plus the timeout, given attempts at most two seconds apart. -/
theorem claim_C9_retry_header_fields (ctx : ExecCtx) (skew : Int)
    (inputs : List AttemptInput)
    (hd : ∀ a ∈ inputs, a.serverDate.isSome = true)
    (hgap : ∀ j < inputs.length - 1,
      0 ≤ (inputs.getD (j + 1) dummyAttempt).localTime -
          (inputs.getD j dummyAttempt).localTime ∧
      (inputs.getD (j + 1) dummyAttempt).localTime -
          (inputs.getD j dummyAttempt).localTime < 2) :
    (∀ j, j < (runExec ctx skew inputs).requests.length →
      ((runExec ctx skew inputs).requests.getD j dummyRequest).invocationId =
        ctx.invocationId) ∧
    (0 < (runExec ctx skew inputs).requests.length →
      ((runExec ctx skew inputs).requests.getD 0 dummyRequest).info =
        RequestInfo.mk 1 none none) ∧
    (∀ j, j + 1 < (runExec ctx skew inputs).requests.length →
      ((runExec ctx skew inputs).requests.getD (j + 1)
          dummyRequest).info.attempt = j + 2 ∧
      ((runExec ctx skew inputs).requests.getD (j + 1)
          dummyRequest).info.maxAttempts = some defaultMaxAttempts ∧
      ∃ t, ((runExec ctx skew inputs).requests.getD (j + 1)
          dummyRequest).info.ttl = some t ∧
        -2 < t - ((inputs.getD j dummyAttempt).serverDate.getD 0 +
          ctx.timeout) ∧
        t - ((inputs.getD j dummyAttempt).serverDate.getD 0 +
          ctx.timeout) < 2) := by
  unfold runExec
  refine ⟨?_, ?_, ?_⟩
  · intro j hj
    exact (runExecAux_request_shape ctx inputs 0 skew none j hj).1
  · intro h0
    have h := runExecAux_request_getD ctx inputs 0 skew none hd 0 h0
    rw [h]
    simp [buildRequestInfo]
  · intro j hj
    have hlen := runExecAux_requests_le_inputs ctx inputs 0 skew none
    have hj2 : j + 1 < inputs.length := by omega
    have h := runExecAux_request_getD ctx inputs 0 skew none hd (j + 1) hj
    rw [h]
    have hdp : dpAt none inputs (j + 1) =
        some ((inputs.getD j dummyAttempt).serverDate.getD 0 -
          (inputs.getD j dummyAttempt).localTime) := rfl
    have hgapj := hgap j (by omega)
    simp only [buildRequestInfo, Nat.zero_add, Nat.succ_ne_zero,
      if_neg (Nat.succ_ne_zero j), hdp, Option.getD_some]
    refine ⟨rfl, rfl, ⟨(inputs.getD (j + 1) dummyAttempt).localTime +
      ((inputs.getD j dummyAttempt).serverDate.getD 0 -
        (inputs.getD j dummyAttempt).localTime) + ctx.timeout, rfl, ?_, ?_⟩⟩
    · omega
    · omega

end AwsCore
namespace AwsCore

/-- Witness for C9 on the TestRetryHeaders scenario: attempt 2 carries the
invocation id 42, `attempt=2`, `max=11` and a ttl within 2 seconds of the
first server time plus the 30-second timeout. -/
theorem claim_C9_retry_header_fields_witness :
    ((runExec witnessCtx 0 headerTestInputs).requests.getD 1
        dummyRequest).invocationId = 42 ∧
    ((runExec witnessCtx 0 headerTestInputs).requests.getD 0
        dummyRequest).info = RequestInfo.mk 1 none none ∧
    ((runExec witnessCtx 0 headerTestInputs).requests.getD 1
        dummyRequest).info.attempt = 2 ∧
    ((runExec witnessCtx 0 headerTestInputs).requests.getD 1
        dummyRequest).info.maxAttempts = some defaultMaxAttempts ∧
    (∃ t, ((runExec witnessCtx 0 headerTestInputs).requests.getD 1
        dummyRequest).info.ttl = some t ∧
      -2 < t - ((headerTestInputs.getD 0 dummyAttempt).serverDate.getD 0 +
        witnessCtx.timeout) ∧
      t - ((headerTestInputs.getD 0 dummyAttempt).serverDate.getD 0 +
        witnessCtx.timeout) < 2) :=
  ⟨(claim_C9_retry_header_fields witnessCtx 0 headerTestInputs (by decide)
      (by decide)).1 1 (by decide),
   (claim_C9_retry_header_fields witnessCtx 0 headerTestInputs (by decide)
      (by decide)).2.1 (by decide),
   ((claim_C9_retry_header_fields witnessCtx 0 headerTestInputs (by decide)
      (by decide)).2.2 0 (by decide)).1,
   ((claim_C9_retry_header_fields witnessCtx 0 headerTestInputs (by decide)
      (by decide)).2.2 0 (by decide)).2.1,
   ((claim_C9_retry_header_fields witnessCtx 0 headerTestInputs (by decide)
      (by decide)).2.2 0 (by decide)).2.2⟩

/-- The four clock-skew test scenarios (AWSClientTest.cpp lines 157-238)
replayed at concrete times: a one-hour-ahead Date on a non-retryable error
yields exactly one skew retry; a two-minute offset yields none; with skew
already recorded, a consistent Date on a 401 or 403 yields none; a Date a
further hour ahead, or back in sync, yields exactly one adjusting retry. -/
theorem testClockSkew_trace :
    (runExec witnessCtx 0
      [AttemptInput.mk 100 (some 3700) (AttResult.err (ExecError.mk false 400)),
       AttemptInput.mk 101 (some 3700)
         (AttResult.err (ExecError.mk false 400))]).retries = 1 ∧
    (runExec witnessCtx 0
      [AttemptInput.mk 100 (some 220)
         (AttResult.err (ExecError.mk false 400))]).retries = 0 ∧
    (runExec witnessCtx 3600
      [AttemptInput.mk 105 (some 3700)
         (AttResult.err (ExecError.mk false 401))]).outcome =
      ExecOutcome.failure (ExecError.mk false 401) ∧
    (runExec witnessCtx 3600
      [AttemptInput.mk 110 (some 7300) (AttResult.err (ExecError.mk false 403)),
       AttemptInput.mk 111 (some 7300)
         (AttResult.err (ExecError.mk false 403))]).retries = 1 ∧
    (runExec witnessCtx 7190
      [AttemptInput.mk 120 (some 120) (AttResult.err (ExecError.mk false 403)),
       AttemptInput.mk 121 (some 121)
         (AttResult.err (ExecError.mk false 403))]).retries = 1 := by
  decide

/-- The TestRetryHeaders scenario (AWSClientTest.cpp lines 240-283) replayed
at concrete times: three requests sharing one invocation id, the first with
`attempt=1` only, the retries carrying `attempt`, `max=11` and a ttl equal
to the previous server time plus the 30-second request timeout, up to the
elapsed second between attempts. -/
theorem testRetryHeaders_trace :
    runExec witnessCtx 0 headerTestInputs =
      ExecRunResult.mk
        [BuiltRequest.mk 42 (RequestInfo.mk 1 none none),
         BuiltRequest.mk 42 (RequestInfo.mk 2 (some 11) (some 3731)),
         BuiltRequest.mk 42 (RequestInfo.mk 3 (some 11) (some 7331))]
        ExecOutcome.success 2 0 := by
  decide

end AwsCore
